import Mathlib

/-!
Verification development for the ModuleRelease reconciler
(package `release` of the deckhouse controller, module-controllers).

The Go source is shallowly embedded: the filesystem is an explicit record of
existing directories, symbolic links and unreadable paths; control-plane and
process effects (`Update`, `UpdateStatus`, restart signals, ...) are recorded
as an ordered effect trace.  Control-plane writes and path removals are
modelled as succeeding deterministically; the Go early-return paths taken when
such a write fails are noted in comments where they exist.
-/

namespace Deckhouse

/-- `filepath.Join`/`path.Join` of a directory and one further component.
For the plain (already clean, non-empty) names used by the controller this is
exactly `dir ++ "/" ++ name`. -/
def pathJoin (dir name : String) : String :=
  dir ++ "/" ++ name

/-- `strings.TrimPrefix(s, "../")`: drops one leading `../` when present
(used by `enableModule` and `restoreModuleSymlink` to absolutize the relative
symlink target). -/
def dropParentDir (s : String) : String :=
  match s.data with
  | '.' :: '.' :: '/' :: rest => String.mk rest
  | _ => s

/-- `path.Join("../", moduleName, "v"+version)` from `generateModulePath`. -/
def generateModulePath (moduleName version : String) : String :=
  "../" ++ (moduleName ++ ("/" ++ ("v" ++ version)))

/-- Result of `os.Stat`: success, a not-exist error (`os.IsNotExist` is true),
or any other error (permission denied, I/O error, ...). -/
inductive StatRes where
  | statOk : StatRes
  | notExist : StatRes
  | otherErr : StatRes
deriving DecidableEq, Repr

/-- The on-disk state under `externalModulesDir`: existing directories,
symbolic links (path, textual target) and paths whose `stat` fails with a
non-not-exist error. -/
structure FS where
  dirs : List String
  symlinks : List (String × String)
  unreadable : List String
deriving DecidableEq, Repr

/-- A path exists on disk (as a directory or as a symlink head), i.e.
`os.Lstat` succeeds on it. -/
def FS.hasPath (fs : FS) (p : String) : Prop :=
  p ∈ fs.dirs ∨ p ∈ fs.symlinks.map Prod.fst

instance (fs : FS) (p : String) : Decidable (fs.hasPath p) :=
  inferInstanceAs (Decidable (_ ∨ _))

/-- `os.Stat` on the model state. -/
def FS.stat (fs : FS) (p : String) : StatRes :=
  if p ∈ fs.unreadable then StatRes.otherErr
  else if fs.hasPath p then StatRes.statOk
  else StatRes.notExist

/-- `os.Remove` (deterministic model: succeeds, the path is gone afterwards). -/
def FS.removePath (fs : FS) (p : String) : FS :=
  { fs with
    dirs := fs.dirs.filter (fun d => decide (d ≠ p))
    symlinks := fs.symlinks.filter (fun l => decide (l.1 ≠ p)) }

/-- `os.Symlink(target, p)`: records the link with its textual target. -/
def FS.addSymlink (fs : FS) (p target : String) : FS :=
  { fs with symlinks := (p, target) :: fs.symlinks }

/-- The textual target of the symlink at `p`, when one exists. -/
def lookupSymlink (fs : FS) (p : String) : Option String :=
  (fs.symlinks.find? (fun l => decide (l.1 = p))).map Prod.snd

/-- The first two steps of `enableModule`: remove `oldSymlinkPath` when it is
non-empty and `os.Lstat` finds it, then remove `newSymlinkPath` when `os.Lstat`
finds it.  (In Go a removal failure returns the error; removals are modelled as
succeeding.) -/
def preRemove (oldSymlinkPath newSymlinkPath : String) (fs : FS) : FS :=
  let fs1 := if oldSymlinkPath ≠ "" ∧ fs.hasPath oldSymlinkPath then
    fs.removePath oldSymlinkPath else fs
  if fs1.hasPath newSymlinkPath then fs1.removePath newSymlinkPath else fs1

/-- Outcome of `enableModule`: whether it returned without error, and the
filesystem afterwards (the removals persist even when the payload check then
fails). -/
structure EnableOutcome where
  success : Bool
  fs : FS
deriving DecidableEq, Repr

/-- `enableModule(externalModulesDir, oldSymlinkPath, newSymlinkPath,
modulePath)`: remove the old and new symlinks as above, absolutize
`modulePath` by stripping a leading `../` and joining with
`externalModulesDir`, fail iff `os.Stat` on that directory yields a not-exist
error (`os.IsNotExist`), otherwise create `newSymlinkPath` as a relative
symlink whose textual target is `modulePath`. -/
def enableModule (externalModulesDir oldSymlinkPath newSymlinkPath modulePath : String)
    (fs : FS) : EnableOutcome :=
  let fs2 := preRemove oldSymlinkPath newSymlinkPath fs
  let moduleAbsPath := pathJoin externalModulesDir (dropParentDir modulePath)
  match fs2.stat moduleAbsPath with
  | StatRes.notExist => { success := false, fs := fs2 }
  | _ => { success := true, fs := fs2.addSymlink newSymlinkPath modulePath }

/-- A concrete filesystem for witnesses: the payload `/d/mod/v1.0.0` exists,
an old symlink `/d/modules/10-mod` points at an older version. -/
def fsW : FS :=
  { dirs := ["/d/mod/v1.0.0", "/d/mod/v0.9.0"]
    symlinks := [("/d/modules/10-mod", "../mod/v0.9.0")]
    unreadable := [] }

/-- A filesystem where the payload path stats with a non-not-exist error. -/
def fsPermErr : FS :=
  { dirs := []
    symlinks := []
    unreadable := ["/d/mod/v1.0.0"] }

/-- Release phase (`v1alpha1.Phase*`; `emptyPhase` is the unset `""`). -/
inductive Phase where
  | emptyPhase : Phase
  | pending : Phase
  | deployed : Phase
  | superseded : Phase
  | suspended : Phase
deriving DecidableEq, Repr

/-- `strings.ToLower` of the phase string, as used for the `status` label. -/
def phaseLower : Phase → String
  | Phase.emptyPhase => ""
  | Phase.pending => "pending"
  | Phase.deployed => "deployed"
  | Phase.superseded => "superseded"
  | Phase.suspended => "suspended"

/-- A ModuleRelease resource: spec fields, status fields, labels and
finalizers.  `version` is the textual semver (without the `v` prefix). -/
structure ModuleRelease where
  name : String
  moduleName : String
  version : String
  weight : Nat
  source : String
  phase : Phase
  message : String
  labels : List (String × String)
  finalizers : List String
deriving DecidableEq, Repr

def dummyRelease : ModuleRelease :=
  { name := "", moduleName := "", version := "", weight := 0, source := ""
    phase := Phase.emptyPhase, message := "", labels := [], finalizers := [] }

def getRel (rs : List ModuleRelease) (i : Nat) : ModuleRelease :=
  rs.getD i dummyRelease

/-- Replace the value at a key in an association list, or append the pair
(the Go map-write semantics of `addLabels`). -/
def setKV : List (String × String) → String → String → List (String × String)
  | [], k, v => [(k, v)]
  | kv :: rest, k, v => if kv.1 = k then (k, v) :: rest else kv :: setKV rest k v

/-- `addLabels(mr, map[string]string{k: v})`. -/
def addLabel (mr : ModuleRelease) (k v : String) : ModuleRelease :=
  { mr with labels := setKV mr.labels k v }

def fsReleaseFinalizer : String := "modules.deckhouse.io/exist-on-fs"

def sourceReleaseFinalizer : String := "modules.deckhouse.io/release-exists"

/-- `controllerutil.AddFinalizer`: append when not already present. -/
def addFinalizer (mr : ModuleRelease) (f : String) : ModuleRelease :=
  if f ∈ mr.finalizers then mr else { mr with finalizers := mr.finalizers ++ [f] }

/-- One observable side effect of a reconcile pass, in program order.
`updateStatus` is a `ModuleReleases().UpdateStatus` call carrying the object
written (the `transitionTime` stamp is not modelled); `update` is a
`ModuleReleases().Update` call; `updateSource` is the `ModuleSources().Update`
call adding the `release-exists` finalizer; `addSource` is the
config-service `AddModuleNameToSource` notification; `emitRestart` is the
debouncer invocation.  Filesystem changes are tracked in the returned `FS`. -/
inductive Eff where
  | updateStatus : ModuleRelease → Eff
  | update : ModuleRelease → Eff
  | updateSource : String → Eff
  | addSource : String → String → Eff
  | emitRestart : String → Eff
deriving DecidableEq, Repr

/-- Reconcile outcome (`ctrl.Result`): clean return or requeue. -/
inductive RecResult where
  | okRes : RecResult
  | requeueRes : RecResult
deriving DecidableEq, Repr

/-- The predictor outputs consumed by `reconcilePendingRelease`.
`newReleasePredictor`/`calculateRelease` live outside this package's source;
the reconcile logic is verified for every possible predictor output, so the
indices and the sorted release list are taken as inputs. -/
structure Predictor where
  releases : List ModuleRelease
  currentReleaseIndex : Int
  desiredReleaseIndex : Int
  skippedPatchesIndexes : List Nat
deriving DecidableEq, Repr

/-- `suspendModuleVersionForRelease`: sets phase Suspended and the diagnostic
message.  The only `enableModule` error arising in this model is the payload
not-exist error, which Go rewrites to `"not found"` before formatting. -/
def suspendMsg : String := "Desired version of the module met problems: not found"

def suspendRelease (r : ModuleRelease) : ModuleRelease :=
  { r with phase := Phase.suspended, message := suspendMsg }

/-- `isModuleExistsOnFS`: the symlink resolves to the expected relative
module path (absolute results are normalized before the textual compare). -/
def isModuleExistsOnFS (fs : FS) (symlinkPath modulePath : String) : Prop :=
  lookupSymlink fs symlinkPath = some modulePath

instance (fs : FS) (s m : String) : Decidable (isModuleExistsOnFS fs s m) :=
  inferInstanceAs (Decidable (_ = _))

/-- The first block of `reconcilePendingRelease` (the latest release is
already deployed: re-register its source and restore the symlink when it is
missing).  `Except.error` is the early `return ctrl.Result{Requeue: true}`
taken when the restore's `enableModule` fails (after the Suspended status
write); `Except.ok` carries the effects so far, the `modulesChangedReason`
value and the filesystem. -/
def pendingStep1 (root symDir moduleName : String) (pred : Predictor)
    (curSym : String) (fs : FS) : Except (List Eff × FS) (List Eff × String × FS) :=
  let rs := pred.releases
  if pred.currentReleaseIndex = (rs.length : Int) - 1 then
    let dep := getRel rs pred.currentReleaseIndex.toNat
    let base := [Eff.addSource dep.moduleName dep.source]
    let modulePath := generateModulePath moduleName dep.version
    if isModuleExistsOnFS fs curSym modulePath then Except.ok (base, "", fs)
    else
      let newSym := pathJoin symDir (Nat.repr dep.weight ++ ("-" ++ moduleName))
      let en := enableModule root curSym newSym modulePath fs
      if en.success then Except.ok (base, "one of modules is not enabled", en.fs)
      else Except.error (base ++ [Eff.updateStatus (suspendRelease dep)], en.fs)
  else Except.ok ([], "", fs)

/-- Status writes for the skipped-patch indices: phase is set to Superseded;
nothing else on the release is touched. -/
def skippedEffs (pred : Predictor) : List Eff :=
  pred.skippedPatchesIndexes.map
    (fun i => Eff.updateStatus { getRel pred.releases i with phase := Phase.superseded })

/-- Status write demoting the current (previously Deployed) release:
phase Superseded, message cleared. -/
def demoteEffs (pred : Predictor) : List Eff :=
  if 0 ≤ pred.currentReleaseIndex then
    [Eff.updateStatus { getRel pred.releases pred.currentReleaseIndex.toNat with
      phase := Phase.superseded, message := "" }]
  else []

/-- The `enableModule` call of the desired-release block. -/
def desiredEnable (root symDir moduleName curSym : String) (pred : Predictor)
    (fs1 : FS) : EnableOutcome :=
  let r := getRel pred.releases pred.desiredReleaseIndex.toNat
  enableModule root curSym (pathJoin symDir (Nat.repr r.weight ++ ("-" ++ moduleName)))
    (generateModulePath moduleName r.version) fs1

/-- Status writes of the desired-release block.
NOTE (source, lines 434-449): when `enableModule` fails the code writes the
Suspended status but does not return; it falls through, overwrites the same
object with phase Deployed and an empty message, and writes status again. -/
def desiredEffs (root symDir moduleName curSym : String) (pred : Predictor)
    (fs1 : FS) : List Eff :=
  let r := getRel pred.releases pred.desiredReleaseIndex.toNat
  (if (desiredEnable root symDir moduleName curSym pred fs1).success then []
   else [Eff.updateStatus (suspendRelease r)]) ++
  [Eff.updateStatus { r with phase := Phase.deployed, message := "" }]

/-- `reconcilePendingRelease` for a Pending release of `moduleName`, given the
predictor outputs and the already-discovered current symlink.  Returns the
reconcile result, the ordered effect trace and the final filesystem.
Status writes are modelled as succeeding (each Go error branch merely returns
early with requeue). -/
def reconcilePendingRelease (root symDir moduleName : String) (pred : Predictor)
    (curSym : String) (fs : FS) : RecResult × List Eff × FS :=
  match pendingStep1 root symDir moduleName pred curSym fs with
  | Except.error (effs, fs1) => (RecResult.requeueRes, effs, fs1)
  | Except.ok (effs1, reason0, fs1) =>
    if 0 ≤ pred.desiredReleaseIndex then
      (RecResult.okRes,
        effs1 ++ skippedEffs pred ++ demoteEffs pred ++
          desiredEffs root symDir moduleName curSym pred fs1 ++
          [Eff.emitRestart "a new module release found"],
        (desiredEnable root symDir moduleName curSym pred fs1).fs)
    else
      (RecResult.okRes,
        effs1 ++ skippedEffs pred ++ demoteEffs pred ++
          (if reason0 ≠ "" then [Eff.emitRestart reason0] else []),
        fs1)

/-- `createOrUpdateReconcile`, dispatching on the observed phase.
`sourceFinalizers` is the finalizer list of the release's ModuleSource. -/
def createOrUpdateReconcile (root symDir : String) (mr : ModuleRelease)
    (sourceFinalizers : List String) (pred : Predictor) (curSym : String)
    (fs : FS) : RecResult × List Eff × FS :=
  match mr.phase with
  | Phase.emptyPhase =>
    (RecResult.okRes, [Eff.updateStatus { mr with phase := Phase.pending }], fs)
  | Phase.superseded =>
    (RecResult.okRes, [Eff.update (addLabel mr "status" "superseded")], fs)
  | Phase.suspended =>
    (RecResult.okRes, [Eff.update (addLabel mr "status" "suspended")], fs)
  | Phase.deployed =>
    let mr2 := addLabel (addFinalizer mr fsReleaseFinalizer) "status" "deployed"
    let srcEffs := if sourceReleaseFinalizer ∈ sourceFinalizers then []
      else [Eff.updateSource mr.source]
    (RecResult.okRes, Eff.update mr2 :: srcEffs, fs)
  | Phase.pending => reconcilePendingRelease root symDir mr.moduleName pred curSym fs

/-- A status write that sets phase Deployed. -/
def isDeployedWrite : Eff → Bool
  | Eff.updateStatus r => r.phase == Phase.deployed
  | _ => false

def fsEmpty : FS := { dirs := [], symlinks := [], unreadable := [] }

def predEmpty : Predictor :=
  { releases := [], currentReleaseIndex := -1, desiredReleaseIndex := -1
    skippedPatchesIndexes := [] }

/-- A Pending release whose payload is not on disk (scenario: enable fails). -/
def rdesC1 : ModuleRelease :=
  { name := "mod-b-2.0.0", moduleName := "mod-b", version := "2.0.0", weight := 20
    source := "S1", phase := Phase.pending, message := "", labels := [("module", "mod-b")]
    finalizers := [] }

def predC1 : Predictor :=
  { releases := [rdesC1], currentReleaseIndex := -1, desiredReleaseIndex := 0
    skippedPatchesIndexes := [] }

/-- A Pending release bypassed as a skipped patch, carrying a message and no
labels. -/
def rskipC6 : ModuleRelease :=
  { name := "mod-a-1.0.1", moduleName := "mod-a", version := "1.0.1", weight := 10
    source := "S1", phase := Phase.pending, message := "waiting for the patch"
    labels := [], finalizers := [] }

def predC6 : Predictor :=
  { releases := [rskipC6], currentReleaseIndex := -1, desiredReleaseIndex := -1
    skippedPatchesIndexes := [0] }

/-- A Superseded release before its label write. -/
def rSupC3 : ModuleRelease :=
  { name := "mod-a-1.0.0", moduleName := "mod-a", version := "1.0.0", weight := 10
    source := "S1", phase := Phase.superseded, message := "", labels := []
    finalizers := [] }

/-- The same release after the first reconcile's label write: the converged
state a second reconcile observes. -/
def rSup1C3 : ModuleRelease :=
  { rSupC3 with labels := [("status", "superseded")] }

def relA : ModuleRelease :=
  { name := "mod-a-1.0.0", moduleName := "mod-a", version := "1.0.0", weight := 10
    source := "S1", phase := Phase.deployed, message := "", labels := []
    finalizers := [fsReleaseFinalizer] }

def relB : ModuleRelease :=
  { name := "mod-a-1.1.0", moduleName := "mod-a", version := "1.1.0", weight := 10
    source := "S1", phase := Phase.pending, message := "", labels := []
    finalizers := [] }

def predC7 : Predictor :=
  { releases := [relA, relB], currentReleaseIndex := 0, desiredReleaseIndex := 1
    skippedPatchesIndexes := [] }

/-- The filesystem for the C7 witness: payloads of both versions exist, the
old symlink points at the old version. -/
def fsC7 : FS :=
  { dirs := ["/d/mod-a/v1.0.0", "/d/mod-a/v1.1.0"]
    symlinks := [("/d/modules/10-mod-a", "../mod-a/v1.0.0")]
    unreadable := [] }

/-- Events observed by the debouncer state (the recorded `restartReason`):
an `emitRestart(msg)` call (which also resets the 5-second timer) or an
expiry of the timer. -/
inductive DebEvent where
  | emitCall : String → DebEvent
  | timerFire : DebEvent
deriving DecidableEq, Repr

/-- One transition of the debouncer: the new recorded reason and the number
of host signals raised.  `emitRestart` overwrites the reason; a timer expiry
signals when the reason is non-empty and re-arms the timer — the source does
not clear the reason afterwards. -/
def debStep (reason : String) : DebEvent → String × Nat
  | DebEvent.emitCall msg => (msg, 0)
  | DebEvent.timerFire => (reason, if reason ≠ "" then 1 else 0)

/-- Run the debouncer over an event sequence: final recorded reason and the
total number of host signals raised. -/
def debRun (reason : String) : List DebEvent → String × Nat
  | [] => (reason, 0)
  | e :: es =>
    let p := debStep reason e
    let q := debRun p.1 es
    (q.1, p.2 + q.2)

/-! ## Symlink discovery (`findExistingModuleSymlink`) and its caller -/

/-- Split a character list at its first `-`, when one exists. -/
def splitFirstDash : List Char → Option (List Char × List Char)
  | [] => none
  | c :: cs =>
    if c = '-' then some ([], cs)
    else
      match splitFirstDash cs with
      | none => none
      | some (a, b) => some (c :: a, b)

/-- The regular expression of `findExistingModuleSymlink`:
an entry name matches iff it is the literal module name, or a
non-empty digit string, a dash, then the literal module name. -/
def matchesModule (moduleName entry : String) : Bool :=
  decide (entry = moduleName) ||
  (match splitFirstDash entry.data with
   | none => false
   | some (w, rest) =>
     !w.isEmpty && w.all (fun c => decide ('0' ≤ c) && decide (c ≤ '9')) &&
       decide (rest = moduleName.data))

/-- The walk over the non-directory entries of the symlinks directory:
the first matching entry's path wins and stops the walk (`filepath.SkipDir`
from a non-directory entry ends `filepath.WalkDir`). -/
def firstMatchPath (rootPath moduleName : String) : List String → String
  | [] => ""
  | e :: rest =>
    if matchesModule moduleName e then pathJoin rootPath e
    else firstMatchPath rootPath moduleName rest

/-- `filepath.WalkDir(rootPath, walkDir)`: the root itself is visited first
(its base name checked against the pattern), then its entries in order. -/
def walkFindModuleSymlink (rootPath rootName moduleName : String)
    (entries : List String) : String :=
  if matchesModule moduleName rootName then rootPath
  else firstMatchPath rootPath moduleName entries

/-- `findExistingModuleSymlink(rootPath, moduleName)`: the found path and the
error flag.  `entries = none` models a walk that fails with an error (for
example an unreadable root); `some es` is a successful walk over the listed
entries, which returns a nil error and `""` when nothing matched. -/
def findExistingModuleSymlink (rootPath rootName moduleName : String)
    (entries : Option (List String)) : String × Bool :=
  match entries with
  | none => ("", true)
  | some es => (walkFindModuleSymlink rootPath rootName moduleName es, false)

/-- The caller in `reconcilePendingRelease` (lines 376-379): the fallback
`"900-" ++ moduleName` replaces the result only when the walk returned an
error. -/
def currentSymlinkFor (rootPath rootName moduleName : String)
    (entries : Option (List String)) : String :=
  let res := findExistingModuleSymlink rootPath rootName moduleName entries
  if res.2 then "900-" ++ moduleName else res.1

/-! ## Preflight: orphan purge and payload restore -/

/-- `readModulesFromFS`: map each directory entry containing a `-` to
(the part after the first dash ↦ its full path); entries without a dash are
skipped. -/
def readModulesFromFS (dir : String) (entries : List String) : List (String × String) :=
  entries.foldl
    (fun acc e =>
      match splitFirstDash e.data with
      | none => acc
      | some (_, rest) => setKV acc (String.mk rest) (pathJoin dir e)) []

/-- `deleteModulesWithAbsentRelease`, reduced to the paths it removes: the
values of `readModulesFromFS` whose key is not the module name of any
release. -/
def deleteModulesWithAbsentRelease (dir : String) (entries : List String)
    (releaseModuleNames : List String) : List String :=
  let m := readModulesFromFS dir entries
  let m2 := releaseModuleNames.foldl
    (fun acc n => acc.filter (fun kv => decide (kv.1 ≠ n))) m
  m2.map Prod.snd

/-- `restoreModuleSymlink`: create the symlink unless the payload directory
stats as not-exist (in which case the error is returned and the caller skips
the release, leaving the filesystem unchanged). -/
def restoreModuleSymlink (root symlinkPath moduleRelativePath : String) (fs : FS) : FS :=
  let moduleAbsPath := pathJoin root (dropParentDir moduleRelativePath)
  match fs.stat moduleAbsPath with
  | StatRes.notExist => fs
  | _ => fs.addSymlink symlinkPath moduleRelativePath

/-- Modelled from the spec: the downloader (`ModuleDownloader.
DownloadByModuleVersion`, outside this package's source) materializes a
release's payload at `ROOT/<moduleName>/v<version>` — the on-disk model of
the spec's data-model section. -/
def downloadTarget (root name ver : String) : String :=
  pathJoin root (name ++ ("/" ++ ver))

/-- One iteration of the `restoreAbsentSourceModules` loop for a single
release: skip unless the phase is Deployed and the weight-prefixed symlink
path stats as not-exist; skip (without a download) when the ModuleSource is
absent; call the downloader; on download success the payload directory
appears and the relative symlink is restored.  Returns the downloader calls
made and the resulting filesystem. -/
def restoreReleaseStep (root symDir : String) (sources : List String)
    (dl : String → String → Bool) (fs : FS) (item : ModuleRelease) :
    List (String × String) × FS :=
  if item.phase = Phase.deployed then
    let moduleDir := pathJoin symDir (Nat.repr item.weight ++ ("-" ++ item.moduleName))
    match fs.stat moduleDir with
    | StatRes.notExist =>
      let moduleVersion := "v" ++ item.version
      if item.source ∈ sources then
        if dl item.moduleName moduleVersion then
          let fsDl := { fs with
            dirs := downloadTarget root item.moduleName moduleVersion :: fs.dirs }
          let rel := "../" ++ (item.moduleName ++ ("/" ++ moduleVersion))
          ([(item.moduleName, moduleVersion)], restoreModuleSymlink root moduleDir rel fsDl)
        else ([(item.moduleName, moduleVersion)], fs)
      else ([], fs)
    | _ => ([], fs)
  else ([], fs)

/-- `restoreAbsentSourceModules`: process every release in order; per-release
failures never abort the remaining ones. -/
def restoreAbsentSourceModules (root symDir : String) (sources : List String)
    (dl : String → String → Bool) (releases : List ModuleRelease) (fs : FS) :
    List (String × String) × FS :=
  match releases with
  | [] => ([], fs)
  | r :: rest =>
    let p := restoreReleaseStep root symDir sources dl fs r
    let q := restoreAbsentSourceModules root symDir sources dl rest p.2
    (p.1 ++ q.1, q.2)

/-- A Deployed release used by the preflight witnesses. -/
def relC8 : ModuleRelease :=
  { name := "mod-c-3.1.0", moduleName := "mod-c", version := "3.1.0", weight := 5
    source := "S1", phase := Phase.deployed, message := "", labels := []
    finalizers := [fsReleaseFinalizer] }

/-! ## Theorems -/

theorem string_data_inj (a b : String) (h : a.data = b.data) : a = b := by
  cases a
  cases b
  exact congrArg String.mk h

theorem pathJoin_right_inj (dir a b : String) (h : pathJoin dir a = pathJoin dir b) :
    a = b := by
  apply string_data_inj
  have hd := congrArg String.data h
  simp only [pathJoin, String.data_append] at hd
  exact List.append_cancel_left hd

theorem dropParentDir_append (x : String) : dropParentDir ("../" ++ x) = x := by
  cases x
  rfl

theorem hasPath_removePath (fs : FS) (p q : String) :
    (fs.removePath p).hasPath q ↔ fs.hasPath q ∧ q ≠ p := by
  simp only [FS.hasPath, FS.removePath, List.mem_filter, List.mem_map,
    decide_eq_true_eq]
  constructor
  · rintro (⟨hq, hne⟩ | ⟨x, ⟨hx, hne⟩, hfst⟩)
    · exact ⟨Or.inl hq, hne⟩
    · exact ⟨Or.inr ⟨x, hx, hfst⟩, hfst ▸ hne⟩
  · rintro ⟨hq | ⟨x, hx, hfst⟩, hne⟩
    · exact Or.inl ⟨hq, hne⟩
    · exact Or.inr ⟨x, ⟨hx, hfst ▸ hne⟩, hfst⟩

theorem hasPath_addSymlink (fs : FS) (p t q : String) :
    (fs.addSymlink p t).hasPath q ↔ q = p ∨ fs.hasPath q := by
  simp only [FS.hasPath, FS.addSymlink, List.map_cons, List.mem_cons]
  tauto

theorem lookupSymlink_addSymlink_self (fs : FS) (p t : String) :
    lookupSymlink (fs.addSymlink p t) p = some t := by
  simp [lookupSymlink, FS.addSymlink, List.find?]

theorem lookupSymlink_eq_none_of_not_hasPath (fs : FS) (p : String)
    (h : ¬ fs.hasPath p) : lookupSymlink fs p = none := by
  have hf : fs.symlinks.find? (fun l => decide (l.1 = p)) = none := by
    apply List.find?_eq_none.mpr
    intro x hx
    simp only [decide_eq_true_eq]
    intro he
    exact h (Or.inr (List.mem_map.mpr ⟨x, hx, he⟩))
  simp [lookupSymlink, hf]

theorem hasPath_preRemove_new (oldP newP : String) (fs : FS) :
    ¬ (preRemove oldP newP fs).hasPath newP := by
  unfold preRemove
  set fs1 := if oldP ≠ "" ∧ fs.hasPath oldP then fs.removePath oldP else fs with hfs1
  by_cases h : fs1.hasPath newP
  · rw [if_pos h, hasPath_removePath]
    rintro ⟨-, hne⟩
    exact hne rfl
  · rw [if_neg h]
    exact h

theorem hasPath_preRemove_old (oldP newP : String) (fs : FS)
    (hne : oldP ≠ "") :
    ¬ (preRemove oldP newP fs).hasPath oldP := by
  unfold preRemove
  have h1 : ¬ (if oldP ≠ "" ∧ fs.hasPath oldP then fs.removePath oldP else fs).hasPath oldP := by
    by_cases h : fs.hasPath oldP
    · rw [if_pos ⟨hne, h⟩, hasPath_removePath]
      rintro ⟨-, hcon⟩
      exact hcon rfl
    · have hna : ¬ (oldP ≠ "" ∧ fs.hasPath oldP) := fun hc => h hc.2
      rw [if_neg hna]
      exact h
  set fs1 := if oldP ≠ "" ∧ fs.hasPath oldP then fs.removePath oldP else fs with hfs1
  by_cases h2 : fs1.hasPath newP
  · rw [if_pos h2, hasPath_removePath]
    rintro ⟨hc, -⟩
    exact h1 hc
  · rw [if_neg h2]
    exact h1

/-- C4: with the payload directory present (`stat` succeeds after the two
removals), `enableModule` succeeds and creates `newSymlink` as a relative
symlink whose textual target is exactly `relativeTarget`, having removed the
old symlink (when non-empty) and the previous new symlink; with the payload
directory absent it returns an error and creates no symlink. -/
theorem c4_enableModule_spec (root oldP newP target : String) (fs : FS)
    (hne : oldP ≠ newP) :
    ((preRemove oldP newP fs).stat (pathJoin root (dropParentDir target)) = StatRes.notExist →
      enableModule root oldP newP target fs = { success := false, fs := preRemove oldP newP fs } ∧
      lookupSymlink (enableModule root oldP newP target fs).fs newP = none) ∧
    ((preRemove oldP newP fs).stat (pathJoin root (dropParentDir target)) = StatRes.statOk →
      (enableModule root oldP newP target fs).success = true ∧
      lookupSymlink (enableModule root oldP newP target fs).fs newP = some target ∧
      (oldP ≠ "" → ¬ (enableModule root oldP newP target fs).fs.hasPath oldP)) := by
  constructor
  · intro habs
    refine ⟨?_, ?_⟩
    · simp only [enableModule, habs]
    · simp only [enableModule, habs]
      exact lookupSymlink_eq_none_of_not_hasPath _ _ (hasPath_preRemove_new oldP newP fs)
  · intro hok
    simp only [enableModule, hok]
    refine ⟨trivial, lookupSymlink_addSymlink_self _ _ _, ?_⟩
    intro hne'
    rw [hasPath_addSymlink]
    rintro (heq | hmem)
    · exact hne heq
    · exact hasPath_preRemove_old oldP newP fs hne' hmem

/-- Witness for C4 at a concrete input. -/
theorem c4_enableModule_spec_witness :
    (enableModule "/d" "/d/modules/10-mod" "/d/modules/20-mod" "../mod/v1.0.0" fsW).success = true ∧
    lookupSymlink (enableModule "/d" "/d/modules/10-mod" "/d/modules/20-mod" "../mod/v1.0.0" fsW).fs
      "/d/modules/20-mod" = some "../mod/v1.0.0" := by
  have h := (c4_enableModule_spec "/d" "/d/modules/10-mod" "/d/modules/20-mod" "../mod/v1.0.0" fsW
    (by decide)).2 (by decide)
  exact ⟨h.1, h.2.1⟩

/-- C9: the payload-existence check in `enableModule` only fails the call on a
not-exist stat result; any other stat error (for example permission denied) is
ignored and the symlink is still created. -/
theorem c9_stat_other_error_ignored (root oldP newP target : String) (fs : FS)
    (herr : (preRemove oldP newP fs).stat (pathJoin root (dropParentDir target)) = StatRes.otherErr) :
    (enableModule root oldP newP target fs).success = true ∧
    lookupSymlink (enableModule root oldP newP target fs).fs newP = some target := by
  simp only [enableModule, herr]
  exact ⟨trivial, lookupSymlink_addSymlink_self _ _ _⟩

/-- Witness for C9 at a concrete input: the payload directory is absent but
its stat error is not a not-exist error, and the symlink is created anyway. -/
theorem c9_stat_other_error_ignored_witness :
    (enableModule "/d" "" "/d/modules/20-mod" "../mod/v1.0.0" fsPermErr).success = true ∧
    lookupSymlink (enableModule "/d" "" "/d/modules/20-mod" "../mod/v1.0.0" fsPermErr).fs
      "/d/modules/20-mod" = some "../mod/v1.0.0" :=
  c9_stat_other_error_ignored "/d" "" "/d/modules/20-mod" "../mod/v1.0.0" fsPermErr (by decide)

/-! ## ModuleRelease data model and effect trace -/

/-- C1: with a desired release whose payload is missing, the pass writes the
Suspended status with the diagnostic message, but then falls through: it
overwrites the same release with phase Deployed and an empty message, writes
status again, and emits the restart signal — contradicting the documented
"enable failed ⇒ Suspended, no restart" behavior (the `return` present in the
sibling restore branch is missing here). -/
theorem c1_enable_failure_fallthrough :
    reconcilePendingRelease "/d" "/d/modules" "mod-b" predC1 "" fsEmpty =
      (RecResult.okRes,
       [Eff.updateStatus (suspendRelease rdesC1),
        Eff.updateStatus { rdesC1 with phase := Phase.deployed, message := "" },
        Eff.emitRestart "a new module release found"],
       fsEmpty) := by
  rfl

/-- C6 (counterexample): the reconcile pass writing a skipped-patch release
only sets its phase to Superseded: the written object keeps its old message
(not cleared) and carries no `status=superseded` label. -/
theorem c6_counterexample :
    (reconcilePendingRelease "/d" "/d/modules" "mod-a" predC6 "" fsEmpty).2.1 =
      [Eff.updateStatus { rskipC6 with phase := Phase.superseded }] ∧
    ({ rskipC6 with phase := Phase.superseded } : ModuleRelease).message = "waiting for the patch" ∧
    ("status", "superseded") ∉ ({ rskipC6 with phase := Phase.superseded } : ModuleRelease).labels := by
  exact ⟨rfl, rfl, by decide⟩

/-- C6 (amended): for every skipped-patch index the pass emits a status write
carrying the release with phase Superseded and its message and labels
unchanged; the `status=superseded` label is only added by a later reconcile of
that release (whose `createOrUpdateReconcile` Superseded branch emits exactly
the label-adding Update). -/
theorem c6_skipped_amended (root symDir moduleName curSym : String)
    (pred : Predictor) (fs : FS) (srcFin : List String)
    (effs1 : List Eff) (r0 : String) (fs1 : FS)
    (hstep : pendingStep1 root symDir moduleName pred curSym fs = Except.ok (effs1, r0, fs1))
    (i : Nat) (hi : i ∈ pred.skippedPatchesIndexes) :
    Eff.updateStatus { getRel pred.releases i with phase := Phase.superseded }
      ∈ (reconcilePendingRelease root symDir moduleName pred curSym fs).2.1 ∧
    (createOrUpdateReconcile root symDir
        { getRel pred.releases i with phase := Phase.superseded } srcFin pred curSym fs).2.1 =
      [Eff.update (addLabel { getRel pred.releases i with phase := Phase.superseded }
        "status" "superseded")] := by
  constructor
  · simp only [reconcilePendingRelease, hstep]
    have hmem : Eff.updateStatus { getRel pred.releases i with phase := Phase.superseded }
        ∈ skippedEffs pred :=
      List.mem_map.mpr ⟨i, hi, rfl⟩
    by_cases hd : 0 ≤ pred.desiredReleaseIndex
    · rw [if_pos hd]
      exact List.mem_append.mpr (Or.inl (List.mem_append.mpr (Or.inl (List.mem_append.mpr
        (Or.inl (List.mem_append.mpr (Or.inr hmem)))))))
    · rw [if_neg hd]
      exact List.mem_append.mpr (Or.inl (List.mem_append.mpr (Or.inl (List.mem_append.mpr
        (Or.inr hmem)))))
  · rfl

/-- Witness for C6's amended theorem at a concrete input. -/
theorem c6_skipped_amended_witness :
    Eff.updateStatus { rskipC6 with phase := Phase.superseded }
      ∈ (reconcilePendingRelease "/d" "/d/modules" "mod-a" predC6 "" fsEmpty).2.1 ∧
    (createOrUpdateReconcile "/d" "/d/modules"
        { rskipC6 with phase := Phase.superseded } [] predC6 "" fsEmpty).2.1 =
      [Eff.update (addLabel { rskipC6 with phase := Phase.superseded }
        "status" "superseded")] := by
  have h := c6_skipped_amended "/d" "/d/modules" "mod-a" "" predC6 fsEmpty []
    [] "" fsEmpty (by rfl) 0 (by decide)
  exact h

/-- C3 (counterexample): a Superseded release that is already fully converged
(its `status` label written by the previous pass) still triggers a
control-plane `Update` write on the next reconcile: the second pass is not
write-free. -/
theorem c3_counterexample :
    (createOrUpdateReconcile "/d" "/d/modules" rSupC3 [] predEmpty "" fsEmpty).2.1 =
      [Eff.update rSup1C3] ∧
    (createOrUpdateReconcile "/d" "/d/modules" rSup1C3 [] predEmpty "" fsEmpty).2.1 =
      [Eff.update rSup1C3] ∧
    ([Eff.update rSup1C3] : List Eff) ≠ [] := by
  exact ⟨rfl, rfl, by decide⟩

/-- C3 (amended): a second reconcile of an unchanged, converged release in
phase Superseded, Suspended or Deployed performs no filesystem change and no
status (`UpdateStatus`) write, but unconditionally repeats the label/finalizer
`Update` call, so the pass is not free of control-plane writes. -/
theorem c3_second_pass_amended (root symDir curSym : String) (pred : Predictor)
    (src : List String) (r : ModuleRelease) (fs : FS)
    (hph : r.phase = Phase.superseded ∨ r.phase = Phase.suspended ∨ r.phase = Phase.deployed)
    (hlab : setKV r.labels "status" (phaseLower r.phase) = r.labels)
    (hfin : r.phase = Phase.deployed → fsReleaseFinalizer ∈ r.finalizers)
    (hsrc : r.phase = Phase.deployed → sourceReleaseFinalizer ∈ src) :
    createOrUpdateReconcile root symDir r src pred curSym fs
      = (RecResult.okRes, [Eff.update r], fs) := by
  have heta : ∀ (p : Phase), r.phase = p → ({ r with phase := p } : ModuleRelease) = r := by
    intro p hp
    cases r
    cases hp
    rfl
  rcases hph with h | h | h
  · rw [h, phaseLower] at hlab
    simp only [createOrUpdateReconcile, h, addLabel, hlab]
    rw [show ({ r with phase := Phase.superseded } : ModuleRelease) = r from heta _ h]
  · rw [h, phaseLower] at hlab
    simp only [createOrUpdateReconcile, h, addLabel, hlab]
    rw [show ({ r with phase := Phase.suspended } : ModuleRelease) = r from heta _ h]
  · rw [h, phaseLower] at hlab
    simp only [createOrUpdateReconcile, h, addLabel, addFinalizer, if_pos (hfin h),
      if_pos (hsrc h), hlab]
    rw [show ({ r with phase := Phase.deployed } : ModuleRelease) = r from heta _ h]

/-- Witness for C3's amended theorem at a concrete input. -/
theorem c3_second_pass_amended_witness :
    createOrUpdateReconcile "/d" "/d/modules" rSup1C3 []
      predEmpty "" fsEmpty = (RecResult.okRes, [Eff.update rSup1C3], fsEmpty) :=
  c3_second_pass_amended "/d" "/d/modules" "" predEmpty [] rSup1C3 fsEmpty
    (Or.inl (by decide)) (by decide)
    (fun h => absurd h (by decide)) (fun h => absurd h (by decide))

/-- Effects produced by a successful `pendingStep1` contain no Deployed
status write. -/
theorem pendingStep1_ok_no_deploy (root symDir moduleName curSym : String)
    (pred : Predictor) (fs : FS) (effs1 : List Eff) (r0 : String) (fs1 : FS)
    (hstep : pendingStep1 root symDir moduleName pred curSym fs = Except.ok (effs1, r0, fs1)) :
    ∀ e ∈ effs1, isDeployedWrite e = false := by
  simp only [pendingStep1] at hstep
  by_cases h1 : pred.currentReleaseIndex = (pred.releases.length : Int) - 1
  · rw [if_pos h1] at hstep
    by_cases h2 : isModuleExistsOnFS fs curSym
        (generateModulePath moduleName (getRel pred.releases pred.currentReleaseIndex.toNat).version)
    · rw [if_pos h2] at hstep
      simp only [Except.ok.injEq, Prod.mk.injEq] at hstep
      obtain ⟨he, -, -⟩ := hstep
      subst he
      rintro e he
      rw [List.mem_singleton] at he
      subst he
      rfl
    · rw [if_neg h2] at hstep
      by_cases h3 : (enableModule root curSym
          (pathJoin symDir (Nat.repr (getRel pred.releases pred.currentReleaseIndex.toNat).weight
            ++ ("-" ++ moduleName)))
          (generateModulePath moduleName (getRel pred.releases pred.currentReleaseIndex.toNat).version)
          fs).success = true
      · rw [if_pos h3] at hstep
        simp only [Except.ok.injEq, Prod.mk.injEq] at hstep
        obtain ⟨he, -, -⟩ := hstep
        subst he
        rintro e he
        rw [List.mem_singleton] at he
        subst he
        rfl
      · rw [if_neg h3] at hstep
        simp at hstep
  · rw [if_neg h1] at hstep
    simp only [Except.ok.injEq, Prod.mk.injEq] at hstep
    obtain ⟨he, -, -⟩ := hstep
    subst he
    rintro e h
    cases h

/-- C7: whenever the predictor reports both a current (older Deployed) index
and a desired index, the effect trace of the Pending pass splits as
`pre ++ demote :: post` where `pre` contains no Deployed status write, the
demotion writes the current release as Superseded, and the promotion of the
desired release to Deployed lies in `post` — so the demote strictly precedes
the promote and two releases are never simultaneously set Deployed within the
pass. -/
theorem c7_demote_before_promote (root symDir moduleName curSym : String)
    (pred : Predictor) (fs : FS) (effs1 : List Eff) (r0 : String) (fs1 : FS)
    (hstep : pendingStep1 root symDir moduleName pred curSym fs = Except.ok (effs1, r0, fs1))
    (hc : 0 ≤ pred.currentReleaseIndex) (hd : 0 ≤ pred.desiredReleaseIndex) :
    ∃ pre post,
      (reconcilePendingRelease root symDir moduleName pred curSym fs).2.1 =
        pre ++ Eff.updateStatus { getRel pred.releases pred.currentReleaseIndex.toNat with
          phase := Phase.superseded, message := "" } :: post ∧
      (∀ e ∈ pre, isDeployedWrite e = false) ∧
      Eff.updateStatus { getRel pred.releases pred.desiredReleaseIndex.toNat with
        phase := Phase.deployed, message := "" } ∈ post := by
  have hno := pendingStep1_ok_no_deploy root symDir moduleName curSym pred fs effs1 r0 fs1 hstep
  simp only [reconcilePendingRelease, hstep]
  rw [if_pos hd]
  refine ⟨effs1 ++ skippedEffs pred,
    desiredEffs root symDir moduleName curSym pred fs1 ++ [Eff.emitRestart "a new module release found"],
    ?_, ?_, ?_⟩
  · rw [demoteEffs, if_pos hc]
    simp [List.append_assoc]
  · intro e he
    rcases List.mem_append.mp he with h | h
    · exact hno e h
    · obtain ⟨j, -, rfl⟩ := List.mem_map.mp h
      rfl
  · refine List.mem_append.mpr (Or.inl ?_)
    refine List.mem_append.mpr (Or.inr ?_)
    exact List.mem_singleton.mpr rfl

/-- Witness for C7 at a concrete input: two releases of `mod-a`, the deployed
`1.0.0` at index 0 and the pending `1.1.0` at index 1. -/
theorem c7_demote_before_promote_witness :
    ∃ pre post,
      (reconcilePendingRelease "/d" "/d/modules" "mod-a" predC7
          "/d/modules/10-mod-a" fsC7).2.1 =
        pre ++ Eff.updateStatus { relA with phase := Phase.superseded, message := "" } :: post ∧
      (∀ e ∈ pre, isDeployedWrite e = false) ∧
      Eff.updateStatus { relB with phase := Phase.deployed, message := "" } ∈ post :=
  c7_demote_before_promote "/d" "/d/modules" "mod-a" "/d/modules/10-mod-a"
    predC7 fsC7 [] "" fsC7 (by rfl) (by decide) (by decide)

/-! ## Restart debouncer (`emitRestart` / `restartLoop`) -/

/-- C2 (counterexample): after an `emitRestart "x"` and one timer expiry the
recorded reason is still `"x"` — the loop does not clear it — and with a
second expiry and no further `emitRestart` call a second host signal is
raised, so a single call does not produce exactly one signal. -/
theorem c2_counterexample :
    (debRun "" [DebEvent.emitCall "x", DebEvent.timerFire]).1 = "x" ∧
    (debRun "" [DebEvent.emitCall "x", DebEvent.timerFire, DebEvent.timerFire]).2 = 2 ∧
    (debRun "" [DebEvent.emitCall "x", DebEvent.timerFire, DebEvent.timerFire]).2 ≠ 1 := by
  exact ⟨rfl, rfl, by decide⟩

theorem debRun_emits (ms : List String) (r : String) :
    debRun r (ms.map DebEvent.emitCall) = (ms.getLastD r, 0) := by
  induction ms generalizing r with
  | nil => rfl
  | cons m t ih =>
    simp only [List.map_cons, debRun, debStep, List.getLastD_cons]
    rw [ih m]
    simp

theorem debRun_append (r : String) (l1 l2 : List DebEvent) :
    debRun r (l1 ++ l2) =
      ((debRun (debRun r l1).1 l2).1, (debRun r l1).2 + (debRun (debRun r l1).1 l2).2) := by
  induction l1 generalizing r with
  | nil => simp [debRun]
  | cons e t ih =>
    simp only [List.cons_append, debRun, List.append_eq]
    rw [ih (debStep r e).1]
    simp [Nat.add_assoc]

/-- C2 (amended): the loop raises the host signal when the timer fires with a
non-empty recorded reason and re-arms the timer, but it does not clear the
reason: any number of `emitRestart` calls within one 5-second window yield
exactly one signal at that window's expiry, yet the recorded reason survives,
so the next window raises a further signal even without any new
`emitRestart` call. -/
theorem c2_debounce_amended (ms : List String) (m : String) (hm : m ≠ "") :
    (debRun "" ((ms ++ [m]).map DebEvent.emitCall ++ [DebEvent.timerFire])).2 = 1 ∧
    (debRun "" ((ms ++ [m]).map DebEvent.emitCall ++ [DebEvent.timerFire])).1 = m ∧
    (debRun "" ((ms ++ [m]).map DebEvent.emitCall ++
      [DebEvent.timerFire, DebEvent.timerFire])).2 = 2 := by
  have hlast : (ms ++ [m]).getLastD "" = m := List.getLastD_concat _ _ _
  refine ⟨?_, ?_, ?_⟩
  · rw [debRun_append, debRun_emits, hlast]
    simp [debRun, debStep, hm]
  · rw [debRun_append, debRun_emits, hlast]
    simp [debRun, debStep]
  · rw [debRun_append, debRun_emits, hlast]
    simp [debRun, debStep, hm]

/-- Witness for C2's amended theorem at a concrete input. -/
theorem c2_debounce_amended_witness :
    (debRun "" (([] ++ ["x"]).map DebEvent.emitCall ++ [DebEvent.timerFire])).2 = 1 ∧
    (debRun "" (([] ++ ["x"]).map DebEvent.emitCall ++ [DebEvent.timerFire])).1 = "x" ∧
    (debRun "" (([] ++ ["x"]).map DebEvent.emitCall ++
      [DebEvent.timerFire, DebEvent.timerFire])).2 = 2 :=
  c2_debounce_amended [] "x" (by decide)

/-- C5 (counterexample): a successful walk over a symlinks directory that
contains no entry matching the module pattern yields the empty string as the
current-symlink argument, not the synthetic fallback `900-<moduleName>`. -/
theorem c5_counterexample :
    matchesModule "mod" "modules" = false ∧
    matchesModule "mod" "10-other" = false ∧
    currentSymlinkFor "/d/modules" "modules" "mod" (some ["10-other"]) = "" ∧
    currentSymlinkFor "/d/modules" "modules" "mod" (some ["10-other"]) ≠ "900-" ++ "mod" := by
  refine ⟨by decide, by decide, by decide, by decide⟩

theorem firstMatchPath_eq_empty (rootPath moduleName : String) (es : List String)
    (hall : ∀ x ∈ es, matchesModule moduleName x = false) :
    firstMatchPath rootPath moduleName es = "" := by
  induction es with
  | nil => rfl
  | cons e t ih =>
    have he := hall e (List.mem_cons_self e t)
    simp only [firstMatchPath, he, Bool.false_eq_true, if_false]
    exact ih (fun x hx => hall x (List.mem_cons_of_mem e hx))

/-- C5 (amended): the synthetic fallback `900-<moduleName>` is used only when
the symlink walk returns an error; when the walk succeeds and simply finds no
matching entry, the empty string is passed as the current-symlink argument. -/
theorem c5_fallback_amended (rootPath rootName moduleName : String) (es : List String)
    (hroot : matchesModule moduleName rootName = false)
    (hall : ∀ x ∈ es, matchesModule moduleName x = false) :
    currentSymlinkFor rootPath rootName moduleName (some es) = "" ∧
    currentSymlinkFor rootPath rootName moduleName none = "900-" ++ moduleName := by
  constructor
  · simp only [currentSymlinkFor, findExistingModuleSymlink, walkFindModuleSymlink,
      hroot, Bool.false_eq_true, if_false]
    exact firstMatchPath_eq_empty rootPath moduleName es hall
  · rfl

/-- Witness for C5's amended theorem at a concrete input. -/
theorem c5_fallback_amended_witness :
    currentSymlinkFor "/d/modules" "modules" "mod" (some ["10-other"]) = "" ∧
    currentSymlinkFor "/d/modules" "modules" "mod" none = "900-" ++ "mod" := by
  have h := c5_fallback_amended "/d/modules" "modules" "mod" ["10-other"]
    (by decide) (by decide)
  exact h

/-- C8: for a Deployed release whose weight-prefixed symlink is absent and
whose source exists, the downloader is invoked with the module name and
`"v" ++ version`; when the download succeeds the relative symlink
`../<moduleName>/v<version>` is created at that path; and in all cases the
loop continues with the remaining releases (a per-release failure never
aborts processing). -/
theorem c8_restore_spec (root symDir : String) (sources : List String)
    (dl : String → String → Bool) (r : ModuleRelease) (rest : List ModuleRelease)
    (fs : FS)
    (hdep : r.phase = Phase.deployed)
    (habsent : fs.stat (pathJoin symDir (Nat.repr r.weight ++ ("-" ++ r.moduleName)))
      = StatRes.notExist)
    (hsrc : r.source ∈ sources) :
    (restoreReleaseStep root symDir sources dl fs r).1
      = [(r.moduleName, "v" ++ r.version)] ∧
    (dl r.moduleName ("v" ++ r.version) = true →
      lookupSymlink (restoreReleaseStep root symDir sources dl fs r).2
          (pathJoin symDir (Nat.repr r.weight ++ ("-" ++ r.moduleName)))
        = some ("../" ++ (r.moduleName ++ ("/" ++ ("v" ++ r.version))))) ∧
    restoreAbsentSourceModules root symDir sources dl (r :: rest) fs =
      ((restoreReleaseStep root symDir sources dl fs r).1 ++
        (restoreAbsentSourceModules root symDir sources dl rest
          (restoreReleaseStep root symDir sources dl fs r).2).1,
       (restoreAbsentSourceModules root symDir sources dl rest
         (restoreReleaseStep root symDir sources dl fs r).2).2) := by
  refine ⟨?_, ?_, rfl⟩
  · simp only [restoreReleaseStep, if_pos hdep, habsent]
    rw [if_pos hsrc]
    by_cases hdl : dl r.moduleName ("v" ++ r.version) = true
    · rw [if_pos hdl]
    · rw [if_neg hdl]
  · intro hdl
    simp only [restoreReleaseStep, if_pos hdep, habsent]
    rw [if_pos hsrc, if_pos hdl]
    simp only [restoreModuleSymlink, dropParentDir_append]
    have hstat : FS.stat
        { fs with dirs := downloadTarget root r.moduleName ("v" ++ r.version) :: fs.dirs }
        (pathJoin root (r.moduleName ++ ("/" ++ ("v" ++ r.version)))) ≠ StatRes.notExist := by
      unfold FS.stat
      by_cases hu : pathJoin root (r.moduleName ++ ("/" ++ ("v" ++ r.version)))
          ∈ ({ fs with dirs := downloadTarget root r.moduleName ("v" ++ r.version) :: fs.dirs } : FS).unreadable
      · rw [if_pos hu]
        intro hcon
        cases hcon
      · rw [if_neg hu]
        have hp : ({ fs with
            dirs := downloadTarget root r.moduleName ("v" ++ r.version) :: fs.dirs } : FS).hasPath
            (pathJoin root (r.moduleName ++ ("/" ++ ("v" ++ r.version)))) :=
          Or.inl (List.mem_cons_self _ _)
        rw [if_pos hp]
        intro hcon
        cases hcon
    cases hs : FS.stat
        { fs with dirs := downloadTarget root r.moduleName ("v" ++ r.version) :: fs.dirs }
        (pathJoin root (r.moduleName ++ ("/" ++ ("v" ++ r.version)))) with
    | notExist => exact absurd hs hstat
    | statOk => exact lookupSymlink_addSymlink_self _ _ _
    | otherErr => exact lookupSymlink_addSymlink_self _ _ _

/-- Witness for C8 at a concrete input: `mod-c@3.1.0` Deployed, its symlink
`/d/modules/5-mod-c` absent, and an always-succeeding downloader. -/
theorem c8_restore_spec_witness :
    (restoreReleaseStep "/d" "/d/modules" ["S1"] (fun _ _ => true) fsEmpty relC8).1
      = [("mod-c", "v" ++ "3.1.0")] ∧
    lookupSymlink (restoreReleaseStep "/d" "/d/modules" ["S1"] (fun _ _ => true) fsEmpty relC8).2
        (pathJoin "/d/modules" (Nat.repr relC8.weight ++ ("-" ++ "mod-c")))
      = some ("../" ++ ("mod-c" ++ ("/" ++ ("v" ++ "3.1.0")))) := by
  have h := c8_restore_spec "/d" "/d/modules" ["S1"] (fun _ _ => true) relC8 [] fsEmpty
    (by decide) (by decide) (by decide)
  exact ⟨h.1, h.2.1 (by decide)⟩

theorem splitFirstDash_eq_none_of_not_mem (l : List Char) (h : '-' ∉ l) :
    splitFirstDash l = none := by
  induction l with
  | nil => rfl
  | cons c cs ih =>
    have hc : ¬ c = '-' := fun hc => h (hc ▸ List.mem_cons_self c cs)
    simp only [splitFirstDash, if_neg hc]
    rw [ih (fun hm => h (List.mem_cons_of_mem c hm))]

theorem mem_setKV (acc : List (String × String)) (k v : String) :
    ∀ kv ∈ setKV acc k v, kv = (k, v) ∨ kv ∈ acc := by
  induction acc with
  | nil =>
    intro kv h
    simp only [setKV, List.mem_singleton] at h
    exact Or.inl h
  | cons a t ih =>
    intro kv h
    simp only [setKV] at h
    by_cases hk : a.1 = k
    · rw [if_pos hk] at h
      rcases List.mem_cons.mp h with h1 | h1
      · exact Or.inl h1
      · exact Or.inr (List.mem_cons.mpr (Or.inr h1))
    · rw [if_neg hk] at h
      rcases List.mem_cons.mp h with h1 | h1
      · exact Or.inr (List.mem_cons.mpr (Or.inl h1))
      · rcases ih kv h1 with h2 | h2
        · exact Or.inl h2
        · exact Or.inr (List.mem_cons.mpr (Or.inr h2))

theorem readModulesFromFS_values (dir : String) (es : List String) :
    ∀ (acc : List (String × String)) (kv : String × String),
      kv ∈ es.foldl
        (fun acc e =>
          match splitFirstDash e.data with
          | none => acc
          | some (_, rest) => setKV acc (String.mk rest) (pathJoin dir e)) acc →
      kv ∈ acc ∨ ∃ x, x ∈ es ∧ splitFirstDash x.data ≠ none ∧ kv.2 = pathJoin dir x := by
  induction es with
  | nil =>
    intro acc kv h
    exact Or.inl h
  | cons e t ih =>
    intro acc kv h
    rw [List.foldl_cons] at h
    rcases ih _ kv h with h1 | ⟨x, hx, hdx, hp⟩
    · cases hsp : splitFirstDash e.data with
      | none =>
        rw [hsp] at h1
        exact Or.inl h1
      | some pr =>
        rw [hsp] at h1
        rcases mem_setKV acc (String.mk pr.2) (pathJoin dir e) kv h1 with h2 | h2
        · refine Or.inr ⟨e, List.mem_cons_self e t, ?_, ?_⟩
          · rw [hsp]
            exact fun hc => Option.noConfusion hc
          · rw [h2]
        · exact Or.inl h2
    · exact Or.inr ⟨x, List.mem_cons_of_mem e hx, hdx, hp⟩

theorem foldl_filter_subset (rels : List String) :
    ∀ (m : List (String × String)) (kv : String × String),
      kv ∈ rels.foldl (fun acc n => acc.filter (fun kv => decide (kv.1 ≠ n))) m →
      kv ∈ m := by
  induction rels with
  | nil =>
    intro m kv h
    exact h
  | cons n t ih =>
    intro m kv h
    rw [List.foldl_cons] at h
    exact (List.mem_filter.mp (ih _ kv h)).1

/-- C10: the preflight orphan purge never removes a directory entry of
`ROOT/modules` whose name contains no dash (such entries are skipped by
`readModulesFromFS`), while the discovery pattern of
`findExistingModuleSymlink` nevertheless accepts that weight-less name as a
module's current symlink (taking the entry itself as the module name). -/
theorem c10_dashless_safe (dir : String) (entries : List String)
    (rels : List String) (e : String)
    (_hmem : e ∈ entries) (hdash : '-' ∉ e.data) :
    pathJoin dir e ∉ deleteModulesWithAbsentRelease dir entries rels ∧
    matchesModule e e = true := by
  constructor
  · intro hcon
    simp only [deleteModulesWithAbsentRelease, List.mem_map] at hcon
    obtain ⟨kv, hkv, hsnd⟩ := hcon
    have hkvm := foldl_filter_subset rels _ kv hkv
    rcases readModulesFromFS_values dir entries [] kv hkvm with h1 | ⟨x, -, hdx, hp⟩
    · cases h1
    · have hex : e = x := pathJoin_right_inj dir e x (by rw [← hsnd, hp])
      exact hdx (splitFirstDash_eq_none_of_not_mem x.data (hex ▸ hdash))
  · simp [matchesModule]

/-- Witness for C10 at a concrete input: the dash-less entry `plain` survives
a purge against an empty release list, and matches its own discovery
pattern. -/
theorem c10_dashless_safe_witness :
    pathJoin "/d/modules" "plain"
      ∉ deleteModulesWithAbsentRelease "/d/modules" ["plain", "10-other"] [] ∧
    matchesModule "plain" "plain" = true :=
  c10_dashless_safe "/d/modules" ["plain", "10-other"] [] "plain"
    (by decide) (by decide)

end Deckhouse
